import Mathlib

/-!
# Verification of the field-value resolution engine (`src/mappingLoader.js`)

This file gives a shallow embedding of the JavaScript module
`src/mappingLoader.js` into Lean 4 and proves/refutes the specification
claims about it.

Embedding conventions:

* JavaScript runtime values are modelled by the inductive type `JSVal`:
  `undefined`, `null`, booleans, numbers, strings, arrays, plain objects
  (association lists of string keys), and `Date` objects (modelled by their
  local-time year/month/day components, the only parts the code reads).
* Numbers are modelled by `Int` (the mapping configurations and contexts in
  this repository are JSON documents holding integral numbers; `NaN` and
  fractional values do not occur).
* A thrown exception is modelled by `Except.error`: functions of the source
  that can throw (`.map` on a non-array, `.split` on a non-string,
  `.toLowerCase` on a non-string, and the explicit `throw` in
  `buildFieldValues`) return `Except String JSVal`.
* Strict equality `===` on primitives is structural; on objects, arrays and
  dates it is reference equality in JavaScript.  The engine only ever
  compares a context-derived value against a configuration constant
  (`entry.equals`) or against string literals; such operands are never the
  same reference, so the model makes `===` false whenever either side is a
  container.
* Property access `o[k]` on `null`/`undefined` throws in JavaScript; every
  access in the source is guarded (`entry` is checked non-null, `current &&`
  in `getPathValue`, `entry.map &&`, `entry.truthyValues &&`), so the model
  lets `jsGet` return `undefined` there.
-/

/-- A JavaScript runtime value, as used by `mappingLoader.js`. -/
inductive JSVal where
  | undef : JSVal
  | null : JSVal
  | bool : Bool → JSVal
  | num : Int → JSVal
  | str : String → JSVal
  | arr : List JSVal → JSVal
  | obj : List (String × JSVal) → JSVal
  | date : Int → Nat → Nat → JSVal
deriving Repr

/-- Is the value `undefined`? (`v === undefined`). -/
def isUndef : JSVal → Bool
  | .undef => true
  | _ => false

/-- Is the value `undefined` or `null`? -/
def isNullish : JSVal → Bool
  | .undef => true
  | .null => true
  | _ => false

/-- Is the value the empty string? (`v === ''`). -/
def isEmptyStr : JSVal → Bool
  | .str "" => true
  | _ => false

/-- Is the value the boolean `false`? (`v === false`). -/
def isFalseLit : JSVal → Bool
  | .bool false => true
  | _ => false

/-- Is the value a string? (`typeof v === 'string'`). -/
def isStr : JSVal → Bool
  | .str _ => true
  | _ => false

/-- JavaScript truthiness (`if (v)`).  Falsy values: `undefined`, `null`,
`false`, `0`, `""`.  (`NaN` is also falsy in JavaScript but does not occur in
the `Int` model.) -/
def jsTruthy : JSVal → Bool
  | .undef => false
  | .null => false
  | .bool b => b
  | .num n => n != 0
  | .str s => s != ""
  | _ => true

/-- JavaScript `typeof`. -/
def jsTypeof : JSVal → String
  | .undef => "undefined"
  | .null => "object"
  | .bool _ => "boolean"
  | .num _ => "number"
  | .str _ => "string"
  | _ => "object"

/-- JavaScript strict equality `===`.  Structural on primitives; containers
(objects, arrays, dates) compare by reference in JavaScript, and the operands
compared by the engine never alias, so the model returns `false` there. -/
def jsStrictEq : JSVal → JSVal → Bool
  | .undef, .undef => true
  | .null, .null => true
  | .bool a, .bool b => a == b
  | .num a, .num b => a == b
  | .str a, .str b => a == b
  | _, _ => false

/-- First-match lookup in an object's field list (the lookup semantics of a
JavaScript object, whose keys are unique). -/
def objLookup : List (String × JSVal) → String → Option JSVal
  | [], _ => none
  | (k, v) :: rest, key => if k = key then some v else objLookup rest key

/-- Property assignment `o[k] = v`: replaces the value in place if the key
exists (JavaScript keeps the original insertion position), else appends. -/
def setKey : List (String × JSVal) → String → JSVal → List (String × JSVal)
  | [], k, v => [(k, v)]
  | (k', v') :: rest, k, v =>
    if k' = k then (k, v) :: rest else (k', v') :: setKey rest k v

/-- Pass of `dedupKeys` that drops fields whose key was already seen. -/
def dedupKeysAux : List String → List (String × JSVal) → List (String × JSVal)
  | _, [] => []
  | seen, (k, v) :: rest =>
    if k ∈ seen then dedupKeysAux seen rest
    else (k, v) :: dedupKeysAux (k :: seen) rest

/-- Normalise a field list to unique keys, keeping the first occurrence of
each key (the occurrence `objLookup` sees).  A list built from an actual
JavaScript object already has unique keys and is left unchanged. -/
def dedupKeys (l : List (String × JSVal)) : List (String × JSVal) :=
  dedupKeysAux [] l

/-- `Object.fromEntries`: sequential assignment, so a later entry with the
same key overwrites the value (at the original insertion position). -/
def jsFromEntries (l : List (String × JSVal)) : List (String × JSVal) :=
  l.foldl (fun acc kv => setKey acc kv.1 kv.2) []

/-- Accumulator pass of `jsToNat` over decimal digits. -/
def digitsToNat : List Char → Nat → Option Nat
  | [], acc => some acc
  | c :: rest, acc =>
    if c.isDigit then digitsToNat rest (acc * 10 + (c.toNat - 48)) else none

/-- The numeric reading of a string of decimal digits, if any. -/
def jsToNat (s : String) : Option Nat :=
  match s.data with
  | [] => none
  | cs => digitsToNat cs 0

/-- Pass of `jsSplit` carrying the current (reversed) segment. -/
def splitOnCharAux (sep : Char) : List Char → List Char → List (List Char)
  | [], acc => [acc.reverse]
  | c :: rest, acc =>
    if c = sep then acc.reverse :: splitOnCharAux sep rest []
    else splitOnCharAux sep rest (c :: acc)

/-- JavaScript `s.split(sep)` for a single-character separator. -/
def jsSplit (s : String) (sep : Char) : List String :=
  (splitOnCharAux sep s.data []).map String.mk

/-- JavaScript `s.toLowerCase()` (ASCII model). -/
def jsLower (s : String) : String := String.mk (s.data.map Char.toLower)

/-- JavaScript `s.toUpperCase()` (ASCII model). -/
def jsUpper (s : String) : String := String.mk (s.data.map Char.toUpper)

/-- JavaScript `s.trim()`: strip leading and trailing whitespace. -/
def jsTrimStr (s : String) : String :=
  String.mk
    (((s.data.dropWhile Char.isWhitespace).reverse.dropWhile
      Char.isWhitespace).reverse)

/-- The canonical array-index reading of a property key, if any
(`"0"`, `"17"`, ... — but not `"00"` or `"+1"`). -/
def canonicalIndex (key : String) : Option Nat :=
  match jsToNat key with
  | some i => if toString i = key then some i else none
  | none => none

/-- Property access `o[key]` for a string key (numeric keys are coerced to
strings by JavaScript before access, see `jsToString`).  Strings and arrays
expose `length` and their indexed elements; `Date` has no own data
properties; access on primitives yields `undefined`. -/
def jsGet : JSVal → String → JSVal
  | .obj fs, key => (objLookup fs key).getD .undef
  | .arr es, key =>
    if key = "length" then .num es.length
    else
      match canonicalIndex key with
      | some i => (es.get? i).getD .undef
      | none => .undef
  | .str s, key =>
    if key = "length" then .num s.length
    else
      match canonicalIndex key with
      | some i =>
        match s.data.get? i with
        | some c => .str (String.singleton c)
        | none => .undef
      | none => .undef
  | _, _ => (.undef : JSVal)

/-- `Object.prototype.hasOwnProperty.call(o, key)`. -/
def jsHasOwn : JSVal → String → Bool
  | .obj fs, key => (objLookup fs key).isSome
  | .arr es, key =>
    key == "length" ||
      (match canonicalIndex key with
       | some i => decide (i < es.length)
       | none => false)
  | .str s, key =>
    key == "length" ||
      (match canonicalIndex key with
       | some i => decide (i < s.length)
       | none => false)
  | _, _ => false

/-- `Object.entries`: own enumerable properties in insertion order.  Objects
yield their (unique-key) field list, arrays and strings their indexed
elements, everything else the empty list. -/
def jsEntries : JSVal → List (String × JSVal)
  | .obj fs => dedupKeys fs
  | .arr es => es.enum.map (fun iv => (toString iv.1, iv.2))
  | .str s => s.data.enum.map (fun ic => (toString ic.1, .str (String.singleton ic.2)))
  | _ => []

mutual

/-- JavaScript `String(v)` / template-literal coercion.  Arrays stringify as
their elements joined by `","` with `null`/`undefined` elements blank
(`Array.prototype.toString`); plain objects as `"[object Object]"`; the
`Date` rendering is a compact model of the host's date string. -/
def jsToString : JSVal → String
  | .undef => "undefined"
  | .null => "null"
  | .bool b => if b then "true" else "false"
  | .num n => toString n
  | .str s => s
  | .arr es => String.intercalate "," (jsToStringElems es)
  | .obj _ => "[object Object]"
  | .date y m d => "Date " ++ toString y ++ "-" ++ toString m ++ "-" ++ toString d

/-- Element-wise coercion used by `Array.prototype.join`/`toString`:
`null` and `undefined` become the empty string. -/
def jsToStringElems : List JSVal → List String
  | [] => []
  | v :: vs =>
    (if isNullish v then "" else jsToString v) :: jsToStringElems vs

end

mutual

/-- A value representable in a JSON document: no `undefined`, no `Date`
anywhere inside.  Mapping configurations are parsed from JSON files, so
their entries satisfy this predicate. -/
def isJsonVal : JSVal → Bool
  | .undef => false
  | .date _ _ _ => false
  | .null => true
  | .bool _ => true
  | .num _ => true
  | .str _ => true
  | .arr es => isJsonList es
  | .obj fs => isJsonFields fs

/-- All elements of the list are JSON values. -/
def isJsonList : List JSVal → Bool
  | [] => true
  | v :: vs => isJsonVal v && isJsonList vs

/-- All field values of the list are JSON values. -/
def isJsonFields : List (String × JSVal) → Bool
  | [] => true
  | kv :: rest => isJsonVal kv.2 && isJsonFields rest

end

/-- The nullish-coalescing operator `a ?? b`. -/
def jsNullish (a b : JSVal) : JSVal :=
  if isNullish a then b else a

/-!
## The engine of `src/mappingLoader.js`

Each definition below embeds the source function of the same name.
-/

/-- `getPathValue(source, pathExpression)`, the per-segment walk of the
`for` loop (lines 122-129): at each segment the current value must be truthy
and own the segment, else the whole lookup is `undefined`. -/
def walkSegments : JSVal → List String → JSVal
  | current, [] => current
  | current, seg :: rest =>
    if jsTruthy current && jsHasOwn current seg then
      walkSegments (jsGet current seg) rest
    else (.undef : JSVal)

/-- `getPathValue(source, pathExpression)` (lines 117-131).  Falsy `source`
or falsy `pathExpression` give `undefined` without traversal; a truthy
non-string `pathExpression` makes `pathExpression.split('.')` throw. -/
def getPathValue (source pathExpression : JSVal) : Except String JSVal :=
  if !jsTruthy source || !jsTruthy pathExpression then .ok .undef
  else
    match pathExpression with
    | .str s => .ok (walkSegments source (jsSplit s '.'))
    | _ => .error "pathExpression.split is not a function"

/-- `String(v).toLowerCase()` for each element of `truthyValues`
(line 140): a non-string element makes `v.toLowerCase()` throw.  JavaScript
`Array.prototype.map` builds the whole array before `includes` runs, so the
first bad element throws. -/
def lowerAll : List JSVal → Except String (List String)
  | [] => .ok []
  | .str s :: rest =>
    match lowerAll rest with
    | .error e => .error e
    | .ok ls => .ok (jsLower s :: ls)
  | _ :: _ => .error "v.toLowerCase is not a function"

/-- `resolveCheckbox(value, entry)` (lines 133-144). -/
def resolveCheckbox (value entry : JSVal) : Except String JSVal :=
  if !isUndef (jsGet entry "equals") then
    .ok (.bool (jsStrictEq value (jsGet entry "equals")))
  else if jsTruthy (jsGet entry "truthyValues") && !isNullish value then
    match jsGet entry "truthyValues" with
    | .arr vs =>
      match lowerAll vs with
      | .error e => .error e
      | .ok ls => .ok (.bool (ls.contains (jsLower (jsToString value))))
    | _ => .error "entry.truthyValues.map is not a function"
  else .ok (.bool (jsTruthy value))

/-- The case-folded copy of `entry.map` built by `resolveRadio`
(lines 152-154): `Object.fromEntries(Object.entries(entry.map || {}).map(
([key, v]) => [key.toLowerCase(), v]))` — on key collision after folding the
later-iterated entry wins. -/
def normalizedMap (mapVal : JSVal) : List (String × JSVal) :=
  jsFromEntries
    ((jsEntries (if jsTruthy mapVal then mapVal else .obj [])).map
      (fun kv => (jsLower kv.1, kv.2)))

/-- `resolveRadio(value, entry)` (lines 146-166).  `entry.map[value]`
coerces a non-string `value` to its string form before the property
access. -/
def resolveRadio (value entry : JSVal) : JSVal :=
  if isNullish value then jsNullish (jsGet entry "default") .null
  else
    let caseHit : Option JSVal :=
      if jsTruthy (jsGet entry "caseInsensitive") && isStr value then
        let r := (objLookup (normalizedMap (jsGet entry "map"))
          (jsLower (jsToString value))).getD .undef
        if jsTruthy r then some r else none
      else none
    match caseHit with
    | some r => r
    | none =>
      if jsTruthy (jsGet entry "map") &&
          !isUndef (jsGet (jsGet entry "map") (jsToString value)) then
        jsGet (jsGet entry "map") (jsToString value)
      else jsNullish (jsGet entry "default") value

/-- Is the (proleptic Gregorian) year a leap year? -/
def isLeapYear (y : Int) : Bool :=
  (y % 4 == 0 && y % 100 != 0) || y % 400 == 0

/-- Days in a month of the Gregorian calendar. -/
def daysInMonth (y : Int) (m : Nat) : Nat :=
  if m = 2 then (if isLeapYear y then 29 else 28)
  else if m = 4 ∨ m = 6 ∨ m = 9 ∨ m = 11 then 30
  else 31

/-- Modelled from the platform: `value instanceof Date ? value :
new Date(value)` followed by the `Number.isNaN(date.getTime())` test and the
`getFullYear`/`getMonth`/`getDate` reads in `formatDate` (lines 184-191).
`Date` values expose their stored local components; an ISO `YYYY-MM-DD`
string parses to its components when it names a valid calendar date and is
an Invalid Date otherwise; every other value is modelled as unparsable
(the repository's date inputs are ISO date strings). -/
def parseJsDate : JSVal → Option (Int × Nat × Nat)
  | .date y m d => some (y, m, d)
  | .str s =>
    match jsSplit s '-' with
    | [ys, ms, ds] =>
      if ys.length = 4 ∧ ms.length = 2 ∧ ds.length = 2 then
        match jsToNat ys, jsToNat ms, jsToNat ds with
        | some y, some m, some d =>
          if 1 ≤ m ∧ m ≤ 12 ∧ 1 ≤ d ∧ d ≤ daysInMonth y m then
            some ((y : Int), m, d)
          else none
        | _, _, _ => none
      else none
    | _ => none
  | _ => none

/-- `String(n).padStart(2, '0')` for the day/month components. -/
def pad2 (n : Nat) : String :=
  if n < 10 then "0" ++ toString n else toString n

/-- `pattern.replace(/DD|MM|YYYY/g, (match) => components[match])`
(line 194): scan left to right, at each position try `DD`, then `MM`, then
`YYYY`, else keep the character. -/
def replaceTokens : List Char → String → String → String → String
  | [], _, _, _ => ""
  | 'D' :: 'D' :: rest, dd, mm, yyyy => dd ++ replaceTokens rest dd mm yyyy
  | 'M' :: 'M' :: rest, dd, mm, yyyy => mm ++ replaceTokens rest dd mm yyyy
  | 'Y' :: 'Y' :: 'Y' :: 'Y' :: rest, dd, mm, yyyy =>
    yyyy ++ replaceTokens rest dd mm yyyy
  | c :: rest, dd, mm, yyyy =>
    String.singleton c ++ replaceTokens rest dd mm yyyy

/-- `formatDate(value, pattern)` (lines 183-195): an unparsable value is
returned unchanged, otherwise the pattern's `DD`/`MM`/`YYYY` tokens are
replaced by the zero-padded day and month and the year. -/
def formatDate (value : JSVal) (pattern : String) : JSVal :=
  match parseJsDate value with
  | none => value
  | some (y, m, d) =>
    .str (replaceTokens pattern.data (pad2 d) (pad2 m) (toString y))

/-- `formatValue(value, format)` (lines 168-181): no-op on
`undefined`/`null`/`''` and on unrecognized format names (the `switch`
compares with strict equality). -/
def formatValue (value format : JSVal) : JSVal :=
  if isNullish value || isEmptyStr value then value
  else if jsStrictEq format (.str "DATE_DDMMYYYY") then
    formatDate value "DD.MM.YYYY"
  else if jsStrictEq format (.str "DATE_ISO") then
    formatDate value "YYYY-MM-DD"
  else value

/-- One element of the `paths.map(...)` callback in `buildFromPaths`
(lines 95-107): a string resolves directly; a truthy object-typed
definition with a truthy `path` resolves it and applies `format` when
truthy; anything else yields `null`. -/
def resolvePathDef (pathDef context : JSVal) : Except String JSVal :=
  if isStr pathDef then getPathValue context pathDef
  else if jsTruthy pathDef && (jsTypeof pathDef == "object") &&
      jsTruthy (jsGet pathDef "path") then
    match getPathValue context (jsGet pathDef "path") with
    | .error e => .error e
    | .ok v =>
      if jsTruthy (jsGet pathDef "format") then
        .ok (formatValue v (jsGet pathDef "format"))
      else .ok v
  else .ok .null

/-- The `paths.map(...)` traversal, left to right; the first throw
propagates. -/
def resolveAllPaths : List JSVal → JSVal → Except String (List JSVal)
  | [], _ => .ok []
  | pd :: rest, context =>
    match resolvePathDef pd context with
    | .error e => .error e
    | .ok v =>
      match resolveAllPaths rest context with
      | .error e => .error e
      | .ok vs => .ok (v :: vs)

/-- `buildFromPaths(paths, joiner = '\n', context)` (lines 93-115).  The
default separator applies when the `joiner` argument is `undefined`
(JavaScript default parameters); `.map` on a non-array throws; resolved
values that are `null`/`undefined`/`''` are filtered out; an empty result
is `null`; otherwise a truthy joiner separates, a falsy one concatenates. -/
def buildFromPaths (paths joiner context : JSVal) : Except String JSVal :=
  match paths with
  | .arr pds =>
    match resolveAllPaths pds context with
    | .error e => .error e
    | .ok vs =>
      let values := vs.filter (fun v => !isNullish v && !isEmptyStr v)
      if values.length = 0 then .ok .null
      else
        let j := if isUndef joiner then .str "\n" else joiner
        if jsTruthy j then
          .ok (.str (String.intercalate (jsToString j) (values.map jsToString)))
        else .ok (.str (String.intercalate "" (values.map jsToString)))
  | _ => .error "paths.map is not a function"

/-- Lines 45-51 of `resolveEntry`: the base value before modifiers — a
truthy `paths` takes the multi-path branch, else a truthy `path` is looked
up, else `null`. -/
def baseValue (entry context : JSVal) : Except String JSVal :=
  if jsTruthy (jsGet entry "paths") then
    buildFromPaths (jsGet entry "paths") (jsGet entry "join") context
  else if jsTruthy (jsGet entry "path") then
    getPathValue context (jsGet entry "path")
  else .ok .null

/-- `value.trim()` when the value is a string (`typeof value === 'string'`),
else unchanged. -/
def jsTrimIfString : JSVal → JSVal
  | .str s => .str (jsTrimStr s)
  | v => v

/-- `value.toUpperCase()` when the value is a string, else unchanged. -/
def jsUpperIfString : JSVal → JSVal
  | .str s => .str (jsUpper s)
  | v => v

/-- `value.toLowerCase()` when the value is a string, else unchanged. -/
def jsLowerIfString : JSVal → JSVal
  | .str s => .str (jsLower s)
  | v => v

/-- Lines 53-90 of `resolveEntry`: the modifier pipeline applied to the base
value — `format`, `prefix`, `suffix`, `trim`, then the `type` switch
(terminal for `checkbox`/`radio`), else `uppercase`/`lowercase` and the
generic `default`. -/
def applyModifiers (entry value0 : JSVal) : Except String JSVal :=
  let v1 := if jsTruthy (jsGet entry "format") then
      formatValue value0 (jsGet entry "format") else value0
  let v2 := if jsTruthy (jsGet entry "prefix") && jsTruthy v1 then
      .str (jsToString (jsGet entry "prefix") ++ jsToString v1) else v1
  let v3 := if jsTruthy (jsGet entry "suffix") && jsTruthy v2 then
      .str (jsToString v2 ++ jsToString (jsGet entry "suffix")) else v2
  let v4 := if !isFalseLit (jsGet entry "trim") then jsTrimIfString v3 else v3
  if jsStrictEq (jsGet entry "type") (.str "checkbox") then
    resolveCheckbox v4 entry
  else if jsStrictEq (jsGet entry "type") (.str "radio") then
    .ok (resolveRadio v4 entry)
  else
    let v5 := if jsTruthy (jsGet entry "uppercase") then jsUpperIfString v4 else v4
    let v6 := if jsTruthy (jsGet entry "lowercase") then jsLowerIfString v5 else v5
    if (isNullish v6 || isEmptyStr v6) && !isUndef (jsGet entry "default") then
      .ok (jsGet entry "default")
    else .ok v6

/-- `resolveEntry(entry, context)` (lines 28-91). -/
def resolveEntry (entry context : JSVal) : Except String JSVal :=
  if isNullish entry then .ok entry
  else if isStr entry then getPathValue context entry
  else if jsTypeof entry ≠ "object" then .ok entry
  else if !isUndef (jsGet entry "value") then .ok (jsGet entry "value")
  else
    match baseValue entry context with
    | .error e => .error e
    | .ok v => applyModifiers entry v

/-- The `for` loop of `buildFieldValues` (lines 19-24): resolve each entry
in order and keep those whose value is neither `undefined` nor `null`; a
throw inside the loop aborts the whole build. -/
def buildFields : List (String × JSVal) → JSVal → Except String (List (String × JSVal))
  | [], _ => .ok []
  | (fieldName, entry) :: rest, context =>
    match resolveEntry entry context with
    | .error e => .error e
    | .ok value =>
      match buildFields rest context with
      | .error e => .error e
      | .ok out =>
        if !isNullish value then .ok ((fieldName, value) :: out) else .ok out

/-- `buildFieldValues(mappingConfig, context)` (lines 13-26). -/
def buildFieldValues (mappingConfig context : JSVal) : Except String JSVal :=
  if !jsTruthy mappingConfig || jsTypeof mappingConfig ≠ "object" then
    .error "Mapping config must be an object."
  else
    match buildFields (jsEntries mappingConfig) context with
    | .error e => .error e
    | .ok out => .ok (.obj out)

/-!
## Helper lemmas
-/

theorem isNullish_eq_false_iff (v : JSVal) :
    isNullish v = false ↔ v ≠ .undef ∧ v ≠ .null := by
  cases v <;> simp [isNullish]

theorem isJsonFields_lookup {fs : List (String × JSVal)} {k : String} {v : JSVal}
    (hj : isJsonFields fs = true) (hl : objLookup fs k = some v) :
    isJsonVal v = true := by
  induction fs with
  | nil => simp [objLookup] at hl
  | cons kv rest ih =>
    rw [isJsonFields] at hj
    rw [objLookup] at hl
    simp only [Bool.and_eq_true] at hj
    by_cases hk : kv.1 = k
    · obtain ⟨k0, v0⟩ := kv
      simp_all
    · obtain ⟨k0, v0⟩ := kv
      simp only [hk, if_false] at hl
      exact ih hj.2 hl

theorem isJsonVal_ne_undef {v : JSVal} (h : isJsonVal v = true) : v ≠ .undef := by
  cases v <;> simp_all [isJsonVal]

theorem objLookup_setKey (fs : List (String × JSVal)) (k : String) (v : JSVal)
    (k' : String) :
    objLookup (setKey fs k v) k' = if k' = k then some v else objLookup fs k' := by
  induction fs with
  | nil =>
    by_cases h : k' = k
    · simp [setKey, objLookup, h]
    · simp [setKey, objLookup, h, Ne.symm h]
  | cons kv rest ih =>
    obtain ⟨k0, v0⟩ := kv
    by_cases h0 : k0 = k
    · subst h0
      by_cases h : k' = k0
      · simp [setKey, objLookup, h]
      · simp [setKey, objLookup, h, Ne.symm h]
    · by_cases h : k' = k
      · subst h
        simp [setKey, h0, objLookup, ih, h0]
      · simp [setKey, h0, objLookup, ih, h]

theorem jsGet_obj_setKey (fs : List (String × JSVal)) (k : String) (v : JSVal)
    (k' : String) (hne : k' ≠ k) :
    jsGet (.obj (setKey fs k v)) k' = jsGet (.obj fs) k' := by
  simp [jsGet, objLookup_setKey, hne]

theorem objLookup_cons_self (k : String) (v : JSVal)
    (rest : List (String × JSVal)) :
    objLookup ((k, v) :: rest) k = some v := by
  simp [objLookup]

theorem objLookup_cons_ne (k0 k : String) (v : JSVal)
    (rest : List (String × JSVal)) (h : k ≠ k0) :
    objLookup ((k0, v) :: rest) k = objLookup rest k := by
  simp [objLookup, Ne.symm h]

theorem objLookup_eq_none_of_not_mem {fs : List (String × JSVal)} {k : String}
    (h : k ∉ fs.map Prod.fst) : objLookup fs k = none := by
  induction fs with
  | nil => simp [objLookup]
  | cons kv rest ih =>
    simp only [List.map_cons, List.mem_cons] at h
    push_neg at h
    simp [objLookup, Ne.symm h.1, ih h.2]

theorem dedupKeysAux_eq_self :
    ∀ (seen : List String) (l : List (String × JSVal)),
    (l.map Prod.fst).Nodup → (∀ k ∈ l.map Prod.fst, k ∉ seen) →
    dedupKeysAux seen l = l := by
  intro seen l
  induction l generalizing seen with
  | nil => intro _ _; rfl
  | cons kv rest ih =>
    intro hnd hdisj
    obtain ⟨k0, v0⟩ := kv
    simp only [List.map_cons, List.nodup_cons] at hnd
    have hk0 : k0 ∉ seen := hdisj k0 (by simp)
    rw [dedupKeysAux, if_neg hk0]
    congr 1
    apply ih
    · exact hnd.2
    · intro k hk hmem
      rcases List.mem_cons.mp hmem with h1 | h2
      · subst h1
        exact hnd.1 hk
      · exact hdisj k (List.mem_cons_of_mem _ hk) h2

theorem dedupKeys_eq_self {l : List (String × JSVal)}
    (h : (l.map Prod.fst).Nodup) : dedupKeys l = l :=
  dedupKeysAux_eq_self [] l h (by simp)

theorem resolveCheckbox_congr (e1 e2 v : JSVal)
    (heq : jsGet e1 "equals" = jsGet e2 "equals")
    (htv : jsGet e1 "truthyValues" = jsGet e2 "truthyValues") :
    resolveCheckbox v e1 = resolveCheckbox v e2 := by
  unfold resolveCheckbox
  rw [heq, htv]

theorem resolveRadio_congr (e1 e2 v : JSVal)
    (hd : jsGet e1 "default" = jsGet e2 "default")
    (hci : jsGet e1 "caseInsensitive" = jsGet e2 "caseInsensitive")
    (hm : jsGet e1 "map" = jsGet e2 "map") :
    resolveRadio v e1 = resolveRadio v e2 := by
  unfold resolveRadio
  rw [hd, hci, hm]

theorem applyModifiers_congr (e1 e2 : JSVal)
    (hfmt : jsGet e1 "format" = jsGet e2 "format")
    (hpre : jsGet e1 "prefix" = jsGet e2 "prefix")
    (hsuf : jsGet e1 "suffix" = jsGet e2 "suffix")
    (htrim : jsGet e1 "trim" = jsGet e2 "trim")
    (htype : jsGet e1 "type" = jsGet e2 "type")
    (hup : jsGet e1 "uppercase" = jsGet e2 "uppercase")
    (hlow : jsGet e1 "lowercase" = jsGet e2 "lowercase")
    (hdef : jsGet e1 "default" = jsGet e2 "default")
    (heq : jsGet e1 "equals" = jsGet e2 "equals")
    (htv : jsGet e1 "truthyValues" = jsGet e2 "truthyValues")
    (hci : jsGet e1 "caseInsensitive" = jsGet e2 "caseInsensitive")
    (hm : jsGet e1 "map" = jsGet e2 "map") :
    ∀ v, applyModifiers e1 v = applyModifiers e2 v := by
  intro v
  unfold applyModifiers
  rw [hfmt, hpre, hsuf, htrim, htype, hup, hlow, hdef]
  simp only
    [show ∀ w, resolveCheckbox w e1 = resolveCheckbox w e2 from
      fun w => resolveCheckbox_congr e1 e2 w heq htv,
     show ∀ w, resolveRadio w e1 = resolveRadio w e2 from
      fun w => resolveRadio_congr e1 e2 w hdef hci hm]

theorem applyModifiers_checkbox_congr (e1 e2 : JSVal)
    (hfmt : jsGet e1 "format" = jsGet e2 "format")
    (hpre : jsGet e1 "prefix" = jsGet e2 "prefix")
    (hsuf : jsGet e1 "suffix" = jsGet e2 "suffix")
    (htrim : jsGet e1 "trim" = jsGet e2 "trim")
    (htype1 : jsGet e1 "type" = .str "checkbox")
    (htype2 : jsGet e2 "type" = .str "checkbox")
    (heq : jsGet e1 "equals" = jsGet e2 "equals")
    (htv : jsGet e1 "truthyValues" = jsGet e2 "truthyValues") :
    ∀ v, applyModifiers e1 v = applyModifiers e2 v := by
  intro v
  unfold applyModifiers
  rw [hfmt, hpre, hsuf, htrim, htype1, htype2]
  simp only [jsStrictEq, beq_self_eq_true, if_true]
  exact resolveCheckbox_congr e1 e2 _ heq htv

theorem resolveCheckbox_ok_bool {x e v : JSVal}
    (h : resolveCheckbox x e = .ok v) : ∃ b, v = .bool b := by
  unfold resolveCheckbox at h
  repeat' split at h
  all_goals cases h
  all_goals exact ⟨_, rfl⟩

theorem buildFields_keys_subset :
    ∀ {m out : List (String × JSVal)} {ctx : JSVal},
    buildFields m ctx = .ok out →
    ∀ f, f ∈ out.map Prod.fst → f ∈ m.map Prod.fst := by
  intro m
  induction m with
  | nil =>
    intro out ctx h f hf
    rw [buildFields] at h
    cases h
    simp at hf
  | cons fe rest ih =>
    intro out ctx h f hf
    obtain ⟨f0, e0⟩ := fe
    rw [buildFields] at h
    split at h
    · cases h
    · rename_i v0 hr
      split at h
      · cases h
      · rename_i out' hb
        split at h
        · cases h
          simp only [List.map_cons, List.mem_cons] at hf ⊢
          rcases hf with h1 | h2
          · exact Or.inl h1
          · exact Or.inr (ih hb f h2)
        · cases h
          simp only [List.map_cons, List.mem_cons]
          exact Or.inr (ih hb f hf)

theorem buildFields_lookup :
    ∀ {m out : List (String × JSVal)} {ctx : JSVal},
    (m.map Prod.fst).Nodup →
    buildFields m ctx = .ok out →
    ∀ (f : String) (v : JSVal),
    (objLookup out f = some v ↔
      ∃ e, objLookup m f = some e ∧ resolveEntry e ctx = .ok v ∧
        isNullish v = false) := by
  intro m
  induction m with
  | nil =>
    intro out ctx _ h f v
    rw [buildFields] at h
    cases h
    simp [objLookup]
  | cons fe rest ih =>
    intro out ctx hnd h f v
    obtain ⟨f0, e0⟩ := fe
    simp only [List.map_cons, List.nodup_cons] at hnd
    rw [buildFields] at h
    split at h
    · cases h
    · rename_i v0 hr
      split at h
      · cases h
      · rename_i out' hb
        by_cases hf : f = f0
        · subst hf
          have hnone : objLookup out' f = none :=
            objLookup_eq_none_of_not_mem
              (fun hmem => hnd.1 (buildFields_keys_subset hb f hmem))
          split at h
          · rename_i hk
            cases h
            rw [objLookup_cons_self, objLookup_cons_self]
            constructor
            · intro hv
              exact ⟨e0, rfl, by simp_all, by simp_all⟩
            · rintro ⟨e, he, hre, hnn⟩
              cases he
              rw [hr] at hre
              cases hre
              rfl
          · rename_i hk
            cases h
            rw [hnone, objLookup_cons_self]
            constructor
            · intro hv
              cases hv
            · rintro ⟨e, he, hre, hnn⟩
              cases he
              rw [hr] at hre
              cases hre
              simp_all
        · rw [objLookup_cons_ne _ _ _ _ hf]
          split at h
          · rename_i hk
            cases h
            rw [objLookup_cons_ne _ _ _ _ hf]
            exact ih hnd.2 hb f v
          · rename_i hk
            cases h
            exact ih hnd.2 hb f v

/-!
## Claims
-/

/-- C1: for every mapping entry (a JSON object, as all mapping entries are
parsed from JSON documents) whose `value` key is explicitly present — of any
JSON type — `resolveEntry` returns that value unchanged for every context;
in particular no path lookup, paths concatenation, formatting,
prefix/suffix, trim, type-specializer, case transform, or default handling
can influence the result. -/
theorem resolveEntry_value_short_circuit
    (fs : List (String × JSVal)) (ctx v : JSVal)
    (hjson : isJsonVal (.obj fs) = true)
    (hfound : objLookup fs "value" = some v) :
    resolveEntry (.obj fs) ctx = .ok v := by
  have hv : isJsonVal v = true := by
    rw [isJsonVal] at hjson
    exact isJsonFields_lookup hjson hfound
  have hne : v ≠ .undef := isJsonVal_ne_undef hv
  have hget : jsGet (.obj fs) "value" = v := by simp [jsGet, hfound]
  have hundef : isUndef v = false := by
    cases v <;> simp_all [isUndef]
  rw [resolveEntry]
  simp [isNullish, isStr, jsTypeof, hundef, hget]

/-- C1 witness: a literal `value` accompanied by a `path` key resolves to
the literal, not the path's value. -/
theorem resolveEntry_value_short_circuit_witness :
    isJsonVal (.obj [("value", .num 7), ("path", .str "a")]) = true ∧
    objLookup [("value", .num 7), ("path", .str "a")] "value" = some (.num 7) ∧
    resolveEntry (.obj [("value", .num 7), ("path", .str "a")])
      (.obj [("a", .str "x")]) = .ok (.num 7) :=
  ⟨rfl, rfl, resolveEntry_value_short_circuit _ _ _ rfl rfl⟩

/-- C2 counterexample: a string entry is NOT equivalent to the structured
entry with only a `path` key — the structured form trims string results
(`trim` defaults to on) while the string shorthand returns the looked-up
value untrimmed, and the empty-string entry yields `undefined` while
`\x7bpath: ""\x7d` yields `null`. -/
theorem string_entry_not_equiv_plain_path_entry :
    resolveEntry (.str "a") (.obj [("a", .str " x ")]) = .ok (.str " x ") ∧
    resolveEntry (.obj [("path", .str "a")]) (.obj [("a", .str " x ")])
      = .ok (.str "x") ∧
    JSVal.str " x " ≠ JSVal.str "x" ∧
    resolveEntry (.str "") (.obj [("a", .str " x ")]) = .ok .undef ∧
    resolveEntry (.obj [("path", .str "")]) (.obj [("a", .str " x ")])
      = .ok .null ∧
    JSVal.undef ≠ JSVal.null :=
  ⟨rfl, rfl, by simp, rfl, rfl, by simp⟩

/-- C2 (amended): for every non-empty string entry `s` and every context,
resolving the string entry is equivalent to resolving the structured entry
`\x7bpath: s, trim: false\x7d`. -/
theorem string_entry_equiv_single_path (s : String) (ctx : JSVal)
    (hs : s ≠ "") :
    resolveEntry (.str s) ctx =
      resolveEntry (.obj [("path", .str s), ("trim", .bool false)]) ctx := by
  have hbase : baseValue (.obj [("path", .str s), ("trim", .bool false)]) ctx
      = getPathValue ctx (.str s) := by
    rw [baseValue]
    simp [jsGet, objLookup, jsTruthy, hs]
  have hmods : ∀ w,
      applyModifiers (.obj [("path", .str s), ("trim", .bool false)]) w
        = .ok w := by
    intro w
    rw [applyModifiers]
    simp [jsGet, objLookup, jsTruthy, isFalseLit, jsStrictEq, isUndef]
  cases hgp : getPathValue ctx (.str s) with
  | error e =>
    rw [resolveEntry, resolveEntry]
    simp [isNullish, isStr, jsTypeof, jsGet, objLookup, isUndef, hbase, hgp]
  | ok w =>
    rw [resolveEntry, resolveEntry]
    simp [isNullish, isStr, jsTypeof, jsGet, objLookup, isUndef, hbase, hgp,
      hmods]

/-- C2 witness: instantiation at a concrete non-empty path and context. -/
theorem string_entry_equiv_single_path_witness :
    ("a" : String) ≠ "" ∧
    resolveEntry (.str "a") (.obj [("a", .str "x")]) =
      resolveEntry (.obj [("path", .str "a"), ("trim", .bool false)])
        (.obj [("a", .str "x")]) :=
  ⟨by decide, string_entry_equiv_single_path "a" (.obj [("a", .str "x")])
    (by decide)⟩

/-- C3 counterexample: a missing context argument does not make
`buildFieldValues` fail — the build succeeds and simply omits every
path-derived field. -/
theorem buildFieldValues_missing_context_no_error :
    buildFieldValues (.obj [("f", .str "a")]) .undef = .ok (.obj []) := rfl

/-- C3 (amended): `buildFieldValues` fails immediately with the
configuration error, producing no partial output, exactly when the mapping
definition is absent (falsy) or not of object type; a missing context
argument alone does not cause the failure. -/
theorem buildFieldValues_config_error (m ctx : JSVal)
    (h : jsTruthy m = false ∨ jsTypeof m ≠ "object") :
    buildFieldValues m ctx = .error "Mapping config must be an object." := by
  rw [buildFieldValues]
  rcases h with h | h
  · simp [h]
  · simp [h]

/-- C3 witness: an absent (`null`) mapping definition fails with the
configuration error. -/
theorem buildFieldValues_config_error_witness :
    buildFieldValues .null (.obj []) =
      .error "Mapping config must be an object." :=
  buildFieldValues_config_error .null (.obj []) (Or.inl rfl)

/-- C4 counterexample: `resolveCheckbox` is not idempotent — with an
`equals` rule the first pass maps `"x"` to `true`, but re-resolving `true`
compares `true === "x"` and yields `false`; with a `truthyValues` rule the
first pass maps `"yes"` to `true`, but re-resolving `true` stringifies it to
`"true"`, which is not in the list. -/
theorem resolveCheckbox_not_idempotent :
    resolveCheckbox (.str "x") (.obj [("equals", .str "x")])
      = .ok (.bool true) ∧
    resolveCheckbox (.bool true) (.obj [("equals", .str "x")])
      = .ok (.bool false) ∧
    resolveCheckbox (.str "yes") (.obj [("truthyValues", .arr [.str "yes"])])
      = .ok (.bool true) ∧
    resolveCheckbox (.bool true) (.obj [("truthyValues", .arr [.str "yes"])])
      = .ok (.bool false) :=
  ⟨rfl, rfl, rfl, rfl⟩

/-- C4 (amended): `resolveCheckbox` is idempotent on entries that define
neither `equals` nor a truthy `truthyValues`: re-resolving its boolean
output through the same rule yields the same boolean. -/
theorem resolveCheckbox_idempotent_no_rules (v entry r : JSVal)
    (heq : isUndef (jsGet entry "equals") = true)
    (htv : jsTruthy (jsGet entry "truthyValues") = false)
    (h : resolveCheckbox v entry = .ok r) :
    resolveCheckbox r entry = .ok r := by
  rw [resolveCheckbox] at h ⊢
  simp only [heq, htv, Bool.not_true, Bool.false_and, Bool.false_eq_true,
    if_false] at h ⊢
  cases h
  rfl

/-- C4 witness: instantiation at a rule-free entry. -/
theorem resolveCheckbox_idempotent_no_rules_witness :
    resolveCheckbox (.bool true) (.obj []) = .ok (.bool true) :=
  resolveCheckbox_idempotent_no_rules (.str "hello") (.obj []) (.bool true)
    rfl rfl rfl

/-- C5: `buildFieldValues` includes a field in the output exactly when its
resolved value is neither `null` nor `undefined`; in particular a field
resolving to the empty string is present with value `""`, while a field
resolving to `undefined` or `null` is absent from the output's keys. -/
theorem buildFieldValues_keeps_exactly_non_nullish
    (m out : List (String × JSVal)) (ctx : JSVal) (f : String) (v : JSVal)
    (hnd : (m.map Prod.fst).Nodup)
    (h : buildFieldValues (.obj m) ctx = .ok (.obj out)) :
    objLookup out f = some v ↔
      ∃ e, objLookup m f = some e ∧ resolveEntry e ctx = .ok v ∧
        v ≠ .undef ∧ v ≠ .null := by
  rw [buildFieldValues] at h
  rw [if_neg (by simp [jsTruthy, jsTypeof])] at h
  simp only [jsEntries, dedupKeys_eq_self hnd] at h
  split at h
  · cases h
  · rename_i out' hb
    injection h with h1
    injection h1 with h2
    subst h2
    rw [buildFields_lookup hnd hb f v]
    simp only [isNullish_eq_false_iff]

/-- C5 witness: a field with explicit empty-string value stays, a field
whose path is missing (resolving to `undefined`) is dropped. -/
theorem buildFieldValues_keeps_exactly_non_nullish_witness :
    (objLookup [("f", JSVal.str "")] "f" = some (.str "") ↔
      ∃ e, objLookup [("f", JSVal.obj [("value", .str "")]),
          ("g", JSVal.str "missing")] "f" = some e ∧
        resolveEntry e (.obj []) = .ok (.str "") ∧
        JSVal.str "" ≠ JSVal.undef ∧ JSVal.str "" ≠ JSVal.null) ∧
    (objLookup [("f", JSVal.str "")] "g" = some JSVal.undef ↔
      ∃ e, objLookup [("f", JSVal.obj [("value", .str "")]),
          ("g", JSVal.str "missing")] "g" = some e ∧
        resolveEntry e (.obj []) = .ok JSVal.undef ∧
        JSVal.undef ≠ JSVal.undef ∧ JSVal.undef ≠ JSVal.null) :=
  ⟨buildFieldValues_keeps_exactly_non_nullish
      [("f", .obj [("value", .str "")]), ("g", .str "missing")]
      [("f", .str "")] (.obj []) "f" (.str "") (by simp) rfl,
   buildFieldValues_keeps_exactly_non_nullish
      [("f", .obj [("value", .str "")]), ("g", .str "missing")]
      [("f", .str "")] (.obj []) "g" .undef (by simp) rfl⟩

theorem resolveAllPaths_all_dropped {ctx : JSVal} :
    ∀ {pds : List JSVal},
    (∀ pd ∈ pds, resolvePathDef pd ctx = .ok .null ∨
      resolvePathDef pd ctx = .ok .undef ∨
      resolvePathDef pd ctx = .ok (.str "")) →
    ∃ vs, resolveAllPaths pds ctx = .ok vs ∧
      vs.filter (fun v => !isNullish v && !isEmptyStr v) = [] := by
  intro pds
  induction pds with
  | nil => intro _; exact ⟨[], rfl, rfl⟩
  | cons pd rest ih =>
    intro h
    obtain ⟨vs, hvs, hfil⟩ := ih (fun p hp => h p (List.mem_cons_of_mem _ hp))
    rcases h pd (List.mem_cons_self _ _) with h0 | h0 | h0
    · exact ⟨.null :: vs, by simp only [resolveAllPaths, h0, hvs],
        by rw [List.filter_cons, if_neg (by decide)]; exact hfil⟩
    · exact ⟨.undef :: vs, by simp only [resolveAllPaths, h0, hvs],
        by rw [List.filter_cons, if_neg (by decide)]; exact hfil⟩
    · exact ⟨.str "" :: vs, by simp only [resolveAllPaths, h0, hvs],
        by rw [List.filter_cons, if_neg (by decide)]; exact hfil⟩

/-- C6: when every path definition in the sequence resolves to `null`,
`undefined` or the empty string (in particular when every sub-path is
missing from the context), `buildFromPaths` returns `null`, never the empty
string. -/
theorem buildFromPaths_all_missing_null (pds : List JSVal) (joiner ctx : JSVal)
    (h : ∀ pd ∈ pds, resolvePathDef pd ctx = .ok .null ∨
      resolvePathDef pd ctx = .ok .undef ∨
      resolvePathDef pd ctx = .ok (.str "")) :
    buildFromPaths (.arr pds) joiner ctx = .ok .null := by
  obtain ⟨vs, hvs, hfil⟩ := resolveAllPaths_all_dropped h
  rw [buildFromPaths]
  simp [hvs, hfil]

/-- C6 witness: two sub-paths both missing from an empty context give
`null`. -/
theorem buildFromPaths_all_missing_null_witness :
    buildFromPaths (.arr [.str "m1", .str "m2"]) .undef (.obj [])
      = .ok .null :=
  buildFromPaths_all_missing_null [.str "m1", .str "m2"] .undef (.obj [])
    (by
      intro pd hp
      simp only [List.mem_cons, List.not_mem_nil, or_false] at hp
      rcases hp with rfl | rfl
      · exact Or.inr (Or.inl rfl)
      · exact Or.inr (Or.inl rfl))

/-- C7 counterexample: with `caseInsensitive: true` the folded-map hit is
tested for truthiness, not presence — a falsy mapped value (here `""`) is
skipped and the raw value comes back; and a non-string value (here `true`)
never goes through the folded map at all, even though its string form is a
folded key. -/
theorem resolveRadio_caseInsensitive_counterexample :
    resolveRadio (.str "a")
      (.obj [("caseInsensitive", .bool true), ("map", .obj [("A", .str "")])])
      = .str "a" ∧
    JSVal.str "a" ≠ JSVal.str "" ∧
    resolveRadio (.bool true)
      (.obj [("caseInsensitive", .bool true),
        ("map", .obj [("TRUE", .str "x")])])
      = .bool true ∧
    JSVal.bool true ≠ JSVal.str "x" :=
  ⟨rfl, by simp, rfl, by simp⟩

/-- C7 (amended): for every radio entry with truthy `caseInsensitive` and
every string value, `resolveRadio` builds the lower-cased-key version of
`entry.map` (on key collision after folding, the later-iterated original
key wins, as `jsFromEntries` overwrites) and, if the case-folded value is
found there with a truthy mapped value, returns that mapped value; in
particular with map `\x7b"A": "foo"\x7d` and `caseInsensitive: true` both the
input `"A"` and the input `"a"` resolve to `"foo"`. -/
theorem resolveRadio_caseInsensitive_truthy_hit (s : String) (entry w : JSVal)
    (hci : jsTruthy (jsGet entry "caseInsensitive") = true)
    (hfound : objLookup (normalizedMap (jsGet entry "map")) (jsLower s)
      = some w)
    (htruthy : jsTruthy w = true) :
    resolveRadio (.str s) entry = w := by
  rw [resolveRadio]
  simp [isNullish, isStr, hci, jsToString, hfound, htruthy]

/-- C7 witness: the round-trip scenarios — map `\x7b"A": "foo"\x7d`, inputs
`"a"` and `"A"`, both resolve to `"foo"`. -/
theorem resolveRadio_caseInsensitive_truthy_hit_witness :
    resolveRadio (.str "a")
      (.obj [("caseInsensitive", .bool true),
        ("map", .obj [("A", .str "foo")])]) = .str "foo" ∧
    resolveRadio (.str "A")
      (.obj [("caseInsensitive", .bool true),
        ("map", .obj [("A", .str "foo")])]) = .str "foo" :=
  ⟨resolveRadio_caseInsensitive_truthy_hit "a" _ (.str "foo") rfl rfl rfl,
   resolveRadio_caseInsensitive_truthy_hit "A" _ (.str "foo") rfl rfl rfl⟩

theorem resolveEntry_obj_no_value (fs : List (String × JSVal)) (ctx : JSVal)
    (hval : isUndef (jsGet (.obj fs) "value") = true) :
    resolveEntry (.obj fs) ctx =
      match baseValue (.obj fs) ctx with
      | .error e => .error e
      | .ok v => applyModifiers (.obj fs) v := by
  rw [resolveEntry, if_neg (by simp [isNullish]), if_neg (by simp [isStr]),
    if_neg (by simp [jsTypeof]), if_neg (by simp [hval])]

/-- C8 counterexample: an entry carrying both keys with a falsy `paths`
(here `null`) takes its base value from `path` — the claim's "paths
precedence on key presence" fails; had `paths` been consulted, the call
would have thrown (`null.map`). -/
theorem paths_key_present_but_falsy_uses_path :
    resolveEntry (.obj [("paths", .null), ("path", .str "a")])
      (.obj [("a", .str "x")]) = .ok (.str "x") ∧
    JSVal.str "x" ≠ JSVal.null ∧
    buildFromPaths .null .undef (.obj [("a", .str "x")])
      = .error "paths.map is not a function" :=
  ⟨rfl, by simp, rfl⟩

/-- C8 (amended): for every structured entry without an explicit `value`
whose `paths` key holds a truthy value, the base value is derived from
`paths` via the multi-path concatenation rule, and the `path` key is never
consulted: overwriting `path` with any value leaves the result unchanged.
When `paths` is present but falsy, `path` is consulted instead. -/
theorem resolveEntry_paths_precedence (fs : List (String × JSVal))
    (ctx p : JSVal)
    (hval : isUndef (jsGet (.obj fs) "value") = true)
    (hpaths : jsTruthy (jsGet (.obj fs) "paths") = true) :
    resolveEntry (.obj fs) ctx =
      (buildFromPaths (jsGet (.obj fs) "paths") (jsGet (.obj fs) "join")
        ctx).bind (applyModifiers (.obj fs)) ∧
    resolveEntry (.obj (setKey fs "path" p)) ctx
      = resolveEntry (.obj fs) ctx := by
  have hbase : baseValue (.obj fs) ctx =
      buildFromPaths (jsGet (.obj fs) "paths") (jsGet (.obj fs) "join")
        ctx := by
    rw [baseValue, if_pos hpaths]
  have hget : ∀ k, k ≠ "path" →
      jsGet (.obj (setKey fs "path" p)) k = jsGet (.obj fs) k :=
    fun k hk => jsGet_obj_setKey fs "path" p k hk
  constructor
  · rw [resolveEntry_obj_no_value fs ctx hval, hbase]
    cases hbf : buildFromPaths (jsGet (.obj fs) "paths")
        (jsGet (.obj fs) "join") ctx <;> rfl
  · have hval' : isUndef (jsGet (.obj (setKey fs "path" p)) "value")
        = true := by
      rw [hget "value" (by decide)]
      exact hval
    have hpaths' : jsTruthy (jsGet (.obj (setKey fs "path" p)) "paths")
        = true := by
      rw [hget "paths" (by decide)]
      exact hpaths
    have hbase' : baseValue (.obj (setKey fs "path" p)) ctx
        = baseValue (.obj fs) ctx := by
      rw [baseValue, if_pos hpaths', hget "paths" (by decide),
        hget "join" (by decide), hbase]
    have happ := applyModifiers_congr (.obj (setKey fs "path" p)) (.obj fs)
      (hget "format" (by decide)) (hget "prefix" (by decide))
      (hget "suffix" (by decide)) (hget "trim" (by decide))
      (hget "type" (by decide)) (hget "uppercase" (by decide))
      (hget "lowercase" (by decide)) (hget "default" (by decide))
      (hget "equals" (by decide)) (hget "truthyValues" (by decide))
      (hget "caseInsensitive" (by decide)) (hget "map" (by decide))
    rw [resolveEntry_obj_no_value _ _ hval', resolveEntry_obj_no_value _ _ hval,
      hbase']
    cases hbf : baseValue (.obj fs) ctx <;> simp [happ]

/-- C8 witness: with a truthy `paths`, rewriting `path` to an arbitrary
value does not change the result, and the result is the `paths`
concatenation post-processed by the modifier pipeline. -/
theorem resolveEntry_paths_precedence_witness :
    (resolveEntry (.obj [("paths", .arr [.str "a"]), ("path", .str "zzz")])
        (.obj [("a", .str "x")]) =
      (buildFromPaths
          (jsGet (.obj [("paths", .arr [.str "a"]), ("path", .str "zzz")])
            "paths")
          (jsGet (.obj [("paths", .arr [.str "a"]), ("path", .str "zzz")])
            "join")
          (.obj [("a", .str "x")])).bind
        (applyModifiers
          (.obj [("paths", .arr [.str "a"]), ("path", .str "zzz")]))) ∧
    resolveEntry
        (.obj (setKey [("paths", .arr [.str "a"]), ("path", .str "zzz")]
          "path" (.str "b")))
        (.obj [("a", .str "x")]) =
      resolveEntry (.obj [("paths", .arr [.str "a"]), ("path", .str "zzz")])
        (.obj [("a", .str "x")]) :=
  resolveEntry_paths_precedence
    [("paths", .arr [.str "a"]), ("path", .str "zzz")]
    (.obj [("a", .str "x")]) (.str "b") rfl rfl

theorem jsStrictEq_str_true_iff (a : JSVal) (t : String) :
    jsStrictEq a (.str t) = true ↔ a = .str t := by
  cases a <;> simp [jsStrictEq]

/-- C9: `formatValue` never fails — whenever the value is `null`,
`undefined` or the empty string, or the format name is not one of the two
recognized date formats, or the value does not parse as a valid calendar
date, the original value is returned unchanged (and, the model being a
total function, no exception is raised). -/
theorem formatValue_failure_identity (v fmt : JSVal)
    (h : isNullish v = true ∨ isEmptyStr v = true ∨
      (fmt ≠ .str "DATE_DDMMYYYY" ∧ fmt ≠ .str "DATE_ISO") ∨
      parseJsDate v = none) :
    formatValue v fmt = v := by
  rcases h with h | h | ⟨h1, h2⟩ | h
  · rw [formatValue, if_pos (by simp [h])]
  · rw [formatValue, if_pos (by simp [h])]
  · rw [formatValue]
    by_cases hg : (isNullish v || isEmptyStr v) = true
    · rw [if_pos hg]
    · rw [if_neg hg, if_neg (by simp [jsStrictEq_str_true_iff, h1]),
        if_neg (by simp [jsStrictEq_str_true_iff, h2])]
  · rw [formatValue]
    by_cases hg : (isNullish v || isEmptyStr v) = true
    · rw [if_pos hg]
    · rw [if_neg hg]
      by_cases h1 : jsStrictEq fmt (.str "DATE_DDMMYYYY") = true
      · rw [if_pos h1, formatDate, h]
      · rw [if_neg h1]
        by_cases h2 : jsStrictEq fmt (.str "DATE_ISO") = true
        · rw [if_pos h2, formatDate, h]
        · rw [if_neg h2]

/-- C9 witness: an unparsable date string under a recognized format, an
unknown format name, and an empty string all pass through unchanged. -/
theorem formatValue_failure_identity_witness :
    formatValue (.str "not a date") (.str "DATE_ISO") = .str "not a date" ∧
    formatValue (.str "2024-03-05") (.str "UNKNOWN") = .str "2024-03-05" ∧
    formatValue (.str "") (.str "DATE_ISO") = .str "" :=
  ⟨formatValue_failure_identity (.str "not a date") (.str "DATE_ISO")
      (Or.inr (Or.inr (Or.inr rfl))),
   formatValue_failure_identity (.str "2024-03-05") (.str "UNKNOWN")
      (Or.inr (Or.inr (Or.inl ⟨by simp, by simp⟩))),
   formatValue_failure_identity (.str "") (.str "DATE_ISO")
      (Or.inr (Or.inl rfl))⟩

theorem buildFieldValues_obj_ok {m out : List (String × JSVal)} {ctx : JSVal}
    (h : buildFieldValues (.obj m) ctx = .ok (.obj out)) :
    buildFields (jsEntries (.obj m)) ctx = .ok out := by
  rw [buildFieldValues, if_neg (by simp [jsTruthy, jsTypeof])] at h
  split at h
  · cases h
  · rename_i out' hb
    injection h with h1
    injection h1 with h2
    subst h2
    exact hb

theorem buildFields_entry_ok :
    ∀ {m out : List (String × JSVal)} {ctx : JSVal},
    buildFields m ctx = .ok out →
    ∀ {f : String} {e : JSVal}, objLookup m f = some e →
    ∃ v, resolveEntry e ctx = .ok v := by
  intro m
  induction m with
  | nil =>
    intro out ctx _ f e hl
    simp [objLookup] at hl
  | cons fe rest ih =>
    intro out ctx h f e hl
    obtain ⟨f0, e0⟩ := fe
    rw [buildFields] at h
    split at h
    · cases h
    · rename_i v0 hr
      split at h
      · cases h
      · rename_i out' hb
        by_cases hf : f = f0
        · subst hf
          rw [objLookup_cons_self] at hl
          cases hl
          exact ⟨v0, hr⟩
        · rw [objLookup_cons_ne _ _ _ _ hf] at hl
          exact ih hb hl

theorem applyModifiers_checkbox_ok_bool {e v w : JSVal}
    (htype : jsGet e "type" = .str "checkbox")
    (h : applyModifiers e v = .ok w) : ∃ b, w = .bool b := by
  rw [applyModifiers, htype] at h
  simp only [jsStrictEq, beq_self_eq_true, if_true] at h
  exact resolveCheckbox_ok_bool h

/-- C10 counterexample: a checkbox-typed entry with an explicit `value`
short-circuits before the checkbox specializer and returns the non-boolean
literal; and a checkbox-typed entry with a non-array `truthyValues` throws
instead of returning a boolean. -/
theorem checkbox_type_not_always_boolean :
    resolveEntry (.obj [("type", .str "checkbox"), ("value", .str "hello")])
      (.obj []) = .ok (.str "hello") ∧
    JSVal.str "hello" ≠ JSVal.bool true ∧
    JSVal.str "hello" ≠ JSVal.bool false ∧
    resolveEntry (.obj [("type", .str "checkbox"),
        ("truthyValues", .str "yes"), ("path", .str "a")])
      (.obj [("a", .str "x")])
      = .error "entry.truthyValues.map is not a function" :=
  ⟨rfl, by simp, by simp, rfl⟩

/-- C10 (amended): for every checkbox-typed entry without an explicit
`value` key and every context, whenever `resolveEntry` returns it returns a
strict boolean (`true` or `false`), never `null` or `undefined`;
consequently, whenever `buildFieldValues` succeeds, every checkbox-typed
field of the mapping is present in the output with a boolean value; and the
entry's generic `default` key never influences a checkbox result. -/
theorem checkbox_entries_boolean (fs : List (String × JSVal)) (ctx : JSVal)
    (hval : isUndef (jsGet (.obj fs) "value") = true)
    (htype : jsGet (.obj fs) "type" = .str "checkbox") :
    (∀ v, resolveEntry (.obj fs) ctx = .ok v → ∃ b, v = .bool b) ∧
    (∀ d, resolveEntry (.obj (setKey fs "default" d)) ctx
        = resolveEntry (.obj fs) ctx) ∧
    (∀ m out f, (m.map Prod.fst).Nodup →
      buildFieldValues (.obj m) ctx = .ok (.obj out) →
      objLookup m f = some (.obj fs) →
      ∃ b, objLookup out f = some (.bool b)) := by
  have hA : ∀ v, resolveEntry (.obj fs) ctx = .ok v → ∃ b, v = .bool b := by
    intro v hv
    rw [resolveEntry_obj_no_value fs ctx hval] at hv
    split at hv
    · cases hv
    · rename_i v0 hb
      exact applyModifiers_checkbox_ok_bool htype hv
  refine ⟨hA, ?_, ?_⟩
  · intro d
    have hget : ∀ k, k ≠ "default" →
        jsGet (.obj (setKey fs "default" d)) k = jsGet (.obj fs) k :=
      fun k hk => jsGet_obj_setKey fs "default" d k hk
    have hval' : isUndef (jsGet (.obj (setKey fs "default" d)) "value")
        = true := by
      rw [hget "value" (by decide)]
      exact hval
    have htype' : jsGet (.obj (setKey fs "default" d)) "type"
        = .str "checkbox" := by
      rw [hget "type" (by decide)]
      exact htype
    have hbase' : baseValue (.obj (setKey fs "default" d)) ctx
        = baseValue (.obj fs) ctx := by
      rw [baseValue, baseValue, hget "paths" (by decide),
        hget "join" (by decide), hget "path" (by decide)]
    have happ := applyModifiers_checkbox_congr
      (.obj (setKey fs "default" d)) (.obj fs)
      (hget "format" (by decide)) (hget "prefix" (by decide))
      (hget "suffix" (by decide)) (hget "trim" (by decide))
      htype' htype
      (hget "equals" (by decide)) (hget "truthyValues" (by decide))
    rw [resolveEntry_obj_no_value _ _ hval', resolveEntry_obj_no_value _ _ hval,
      hbase']
    cases hbf : baseValue (.obj fs) ctx <;> simp [happ]
  · intro m out f hnd hbuild hlook
    have hb := buildFieldValues_obj_ok hbuild
    rw [jsEntries, dedupKeys_eq_self hnd] at hb
    obtain ⟨v, hv⟩ := buildFields_entry_ok hb hlook
    obtain ⟨b, rfl⟩ := hA v hv
    exact ⟨b, (buildFields_lookup hnd hb f (.bool b)).mpr
      ⟨.obj fs, hlook, hv, by simp [isNullish]⟩⟩

/-- C10 witness: a checkbox field bound to a truthy path value resolves to
`true`, stays boolean when `default` is overwritten, and is present in the
build output. -/
theorem checkbox_entries_boolean_witness :
    (∃ b, JSVal.bool true = JSVal.bool b) ∧
    resolveEntry
        (.obj (setKey [("type", .str "checkbox"), ("path", .str "flag")]
          "default" (.str "N/A")))
        (.obj [("flag", .str "yes")]) =
      resolveEntry (.obj [("type", .str "checkbox"), ("path", .str "flag")])
        (.obj [("flag", .str "yes")]) ∧
    ∃ b, objLookup [("box", JSVal.bool true)] "box" = some (.bool b) := by
  have h := checkbox_entries_boolean
    [("type", .str "checkbox"), ("path", .str "flag")]
    (.obj [("flag", .str "yes")]) rfl rfl
  exact ⟨h.1 (.bool true) rfl, h.2.1 (.str "N/A"),
    h.2.2 [("box", .obj [("type", .str "checkbox"), ("path", .str "flag")])]
      [("box", .bool true)] "box" (by simp) rfl rfl⟩
